import Mathlib

/-!
Verification development for the reading-aid audio pipeline.

The definitions below are a shallow embedding of the audio subsystem of the
application: the playback controller in `components/TextDisplay.tsx`
(`handlePlay`, `stopAudio`, `handleLanguageChange`, the unmount cleanup), the
speech-synthesis client and PCM decoder in `services/geminiService.ts`
(`generateSpeech`, `decodeAudioData`), and the critical-keyword audit fallback
in `processImage`.

Conventions of the embedding:
* Asynchronous functions are split at their suspension points
  (`await generateSpeech`): `phase1` is the synchronous part of `handlePlay`
  up to the synthesis call, `resolveOk` / `resolveFail` are the continuations
  that run when the synthesis promise settles.  A sequential (non-interleaved)
  execution of a play request is `handlePlaySeq`; arbitrary interleavings of
  several in-flight requests are executed by `asyncRun`.
* Machine floats from the Web Audio API are modelled by `ℚ`; every value the
  decoder produces is an Int16 divided by 32768 and hence exact in Float32,
  so the rational model is bitwise faithful.
* Provider calls are inputs: a play request takes the result the synthesis
  promise would settle with (`some buffer` for fulfilment, `none` for
  rejection); `generateSpeech` takes the provider outcome as an explicit
  argument.
* The `log` field of the controller state is instrumentation that records the
  externally visible actions (synthesis calls, loading-state writes, context
  creation/resume/close, source start/stop, error alerts) in order.
-/

namespace NoSpecs

/-- The three text variants of `type TextType` in `TextDisplay.tsx`. -/
inductive TextType
  | original
  | simplified
  | translated
deriving DecidableEq, Repr

/-- A decoded audio buffer, identified abstractly.  Two buffers are
bitwise-identical iff they are equal as values. -/
structure AudioBuf where
  id : Nat
deriving DecidableEq, Repr

/-- Runtime state of a Web Audio output context (`AudioContext.state`). -/
inductive CtxState
  | running
  | suspended
deriving DecidableEq, Repr

/-- Observable actions of the controller, recorded in order. -/
inductive Ev
  | synth (key : String) (lang : String)
  | loadingSet (t : TextType)
  | ctxCreate
  | ctxResume
  | ctxClose
  | srcStart (id : Nat)
  | srcStop (id : Nat)
  | alertShown
deriving DecidableEq, Repr

/-- State of the `TextDisplay` component relevant to the audio pipeline:
`activeAudioType`, `loadingAudioType`, `audioSourceRef`, `audioCache`,
`audioContextRef`, `currentLanguage`, `translatedText` and the settings'
target language.  `started` lists the sources on which `start()` has been
called and `stop()` has not (most recent first), together with the buffer
each one plays; `nextSrc` supplies fresh source identities. -/
structure CtrlState where
  active : Option TextType
  loading : Option TextType
  sourceRef : Option Nat
  started : List (Nat × AudioBuf)
  cache : List (String × AudioBuf)
  ctx : Option CtxState
  nextSrc : Nat
  currentLanguage : String
  settingsLang : String
  translatedText : String
  log : List Ev
deriving DecidableEq, Repr

/-- Initial component state: nothing playing, empty cache, no context,
`currentLanguage` initialised from `settings.targetLanguage`
(`useState(settings.targetLanguage)`, line 28). -/
def initState (targetLang : String) (translated0 : String) : CtrlState :=
  { active := none
    loading := none
    sourceRef := none
    started := []
    cache := []
    ctx := none
    nextSrc := 0
    currentLanguage := targetLang
    settingsLang := targetLang
    translatedText := translated0
    log := [] }

/-- Cache key computation of `handlePlay` line 84:
`type === 'translated' ? ('translated_' + currentLanguage) : type`. -/
def cacheKey (t : TextType) (lang : String) : String :=
  match t with
  | .translated => "translated_" ++ lang
  | .original => "original"
  | .simplified => "simplified"

/-- Lookup in the cache object `audioCache.current[key]`. -/
def lookupCache (c : List (String × AudioBuf)) (k : String) : Option AudioBuf :=
  (c.find? (fun p => p.1 == k)).map (fun p => p.2)

/-- Deletion `delete audioCache.current[key]` removes every binding of the
key. -/
def eraseCache (c : List (String × AudioBuf)) (k : String) : List (String × AudioBuf) :=
  c.filter (fun p => p.1 != k)

/-- Lookup of a started source by its identity. -/
def lookupStarted (l : List (Nat × AudioBuf)) (id : Nat) : Option AudioBuf :=
  (l.find? (fun p => p.1 == id)).map (fun p => p.2)

/-- The buffer held by the source `audioSourceRef` currently points at. -/
def playingBuf (s : CtrlState) : Option AudioBuf :=
  match s.sourceRef with
  | none => none
  | some id => lookupStarted s.started id

/-- Calling `stop()` on a playback handle: the Web Audio call may throw
(e.g. `InvalidStateError`) when the handle is no longer valid. -/
def stopHandle (invalid : Bool) : Except String Unit :=
  if invalid then .error "InvalidStateError" else .ok ()

/-- The `stopAudio` helper of `TextDisplay.tsx` lines 47-53: if a source is
referenced, `try { source.stop() } catch (e) {}` — a throw from the handle is
swallowed and never propagated — then the reference is cleared and
`activeAudioType` is reset. -/
def stopAudio (s : CtrlState) : CtrlState :=
  match s.sourceRef with
  | some id =>
    match stopHandle (lookupStarted s.started id).isNone with
    | .ok _ =>
      { s with sourceRef := none, active := none
               started := s.started.filter (fun p => p.1 != id)
               log := s.log ++ [Ev.srcStop id] }
    | .error _ =>
      { s with sourceRef := none, active := none
               started := s.started.filter (fun p => p.1 != id)
               log := s.log ++ [Ev.srcStop id] }
  | none => { s with active := none }

/-- The tail of `handlePlay` (lines 92-113) once a buffer is available:
create the shared output context if absent (`new AudioContextClass({sampleRate:
24000})`), resume it if suspended, create and start a source for the buffer,
store it in `audioSourceRef`, set `activeAudioType`, and finally clear
`loadingAudioType`.  Note: the code performs no staleness check here. -/
def finishPlay (t : TextType) (b : AudioBuf) (s0 : CtrlState) : CtrlState :=
  let s :=
    match s0.ctx with
    | none => { s0 with ctx := some CtxState.running, log := s0.log ++ [Ev.ctxCreate] }
    | some CtxState.suspended => { s0 with ctx := some CtxState.running, log := s0.log ++ [Ev.ctxResume] }
    | some CtxState.running => s0
  { s with nextSrc := s.nextSrc + 1
           started := (s.nextSrc, b) :: s.started
           sourceRef := some s.nextSrc
           active := some t
           loading := none
           log := s.log ++ [Ev.srcStart s.nextSrc] }

/-- A play request suspended at `await generateSpeech(text, lang)`:
the variant, the cache key computed before the await, the text, and the
language argument passed to the provider. -/
structure Pending where
  ttype : TextType
  key : String
  text : String
  lang : String
deriving DecidableEq, Repr

/-- The `setLoadingAudioType(type)` write of line 81. -/
def loadState (t : TextType) (s : CtrlState) : CtrlState :=
  { s with loading := some t, log := s.log ++ [Ev.loadingSet t] }

/-- Issuing the network call `generateSpeech(text, lang)`; the log records
the call with the cache key it will fill and the language requested. -/
def issueSynth (key lang : String) (s : CtrlState) : CtrlState :=
  { s with log := s.log ++ [Ev.synth key lang] }

/-- The language argument of line 88:
`type === 'translated' ? currentLanguage : settings.targetLanguage`. -/
def playLang (t : TextType) (s : CtrlState) : String :=
  if t = TextType.translated then s.currentLanguage else s.settingsLang

/-- The part of `handlePlay` after the initial stop (lines 80-88):
empty-text early return, `setLoadingAudioType`, cache key computation and
cache lookup.  A cache hit continues synchronously into `finishPlay`; a miss
issues the synthesis call and suspends, returning the pending
continuation. -/
def phase1Go (t : TextType) (text : String) (s : CtrlState) : CtrlState × Option Pending :=
  if text = "" then (s, none)
  else
    let s1 := loadState t s
    match lookupCache s1.cache (cacheKey t s1.currentLanguage) with
    | some b => (finishPlay t b s1, none)
    | none =>
      (issueSynth (cacheKey t s1.currentLanguage) (playLang t s1) s1,
       some { ttype := t, key := cacheKey t s1.currentLanguage, text := text,
              lang := playLang t s1 })

/-- The synchronous part of `handlePlay` (lines 74-88): toggle check (a play
request for the variant currently playing acts as stop), stop of any current
playback, then `phase1Go`. -/
def phase1 (t : TextType) (text : String) (s0 : CtrlState) : CtrlState × Option Pending :=
  if s0.active = some t then
    (stopAudio s0, none)
  else
    phase1Go t text (stopAudio s0)

/-- Continuation of `handlePlay` when the synthesis promise fulfils (lines
89-107): the buffer is stored in the cache under the precomputed key and
playback starts — with no check that the variant still matches the most
recent request. -/
def resolveOk (p : Pending) (b : AudioBuf) (s : CtrlState) : CtrlState :=
  finishPlay p.ttype b { s with cache := (p.key, b) :: s.cache }

/-- Continuation of `handlePlay` when the synthesis promise rejects (lines
109-113): the catch shows one alert and the finally clears
`loadingAudioType`. -/
def resolveFail (_ : Pending) (s : CtrlState) : CtrlState :=
  { s with loading := none, log := s.log ++ [Ev.alertShown] }

/-- A complete, non-interleaved execution of one `handlePlay` call.  `r` is
the result the synthesis promise would settle with if a call is issued
(`some b` fulfilment, `none` rejection); it is ignored on cache hits and on
the toggle/empty-text early returns. -/
def handlePlaySeq (r : Option AudioBuf) (t : TextType) (text : String) (s : CtrlState) : CtrlState :=
  match phase1 t text s with
  | (s1, none) => s1
  | (s1, some p) =>
    match r with
    | some b => resolveOk p b s1
    | none => resolveFail p s1

/-- The `handleLanguageChange` handler (lines 55-72): set `currentLanguage`,
stop playback, await the translation (`tr` is the settled result: `some text`
fulfilment, `none` rejection); on success store the new translated text and
delete the cache entry under the bare key `"translated"` if present.  (Plays
of the translated variant store under `"translated_" ++ language`, so this
delete never finds an entry in reachable states.) -/
def handleLanguageChange (newLang : String) (tr : Option String) (s0 : CtrlState) : CtrlState :=
  let s := { s0 with currentLanguage := newLang }
  let s := stopAudio s
  match tr with
  | some newText =>
    let s := { s with translatedText := newText }
    if (lookupCache s.cache "translated").isSome then
      { s with cache := eraseCache s.cache "translated" }
    else s
  | none => s

/-- The unmount cleanup of the `useEffect` (lines 38-45): stop playback,
then close the shared output context if one exists. -/
def teardown (s0 : CtrlState) : CtrlState :=
  let s := stopAudio s0
  match s.ctx with
  | some _ => { s with ctx := none, log := s.log ++ [Ev.ctxClose] }
  | none => s

/-- User-interface events driving the controller in a reading session. -/
inductive UiEvent
  | play (t : TextType) (text : String) (r : Option AudioBuf)
  | stop
  | ended
  | suspendCtx
  | langChange (newLang : String) (tr : Option String)
deriving DecidableEq, Repr

/-- One sequential step of the controller.  `ended` is the `source.onended`
callback (line 104), which only clears `activeAudioType`; `suspendCtx` models
the platform auto-suspending an idle running context. -/
def step (s : CtrlState) (e : UiEvent) : CtrlState :=
  match e with
  | .play t text r => handlePlaySeq r t text s
  | .stop => stopAudio s
  | .ended => { s with active := none }
  | .suspendCtx =>
    match s.ctx with
    | some CtxState.running => { s with ctx := some CtxState.suspended }
    | _ => s
  | .langChange l tr => handleLanguageChange l tr s

/-- Sequential execution of a list of user-interface events. -/
def run (evs : List UiEvent) (s : CtrlState) : CtrlState :=
  evs.foldl step s

/-- State of the asynchronous semantics: the component state plus the play
requests currently suspended at their synthesis call. -/
structure AsyncState where
  ctrl : CtrlState
  pendings : List Pending
deriving DecidableEq, Repr

/-- Events of the asynchronous semantics: issuing a play request (which runs
its synchronous part and may suspend) and settling the `i`-th in-flight
synthesis promise. -/
inductive AsyncEv
  | issue (t : TextType) (text : String)
  | settle (i : Nat) (r : Option AudioBuf)
deriving DecidableEq, Repr

/-- One interleaving step. -/
def asyncStep (a : AsyncState) (e : AsyncEv) : AsyncState :=
  match e with
  | .issue t text =>
    match phase1 t text a.ctrl with
    | (s, none) => { ctrl := s, pendings := a.pendings }
    | (s, some p) => { ctrl := s, pendings := a.pendings ++ [p] }
  | .settle i r =>
    match a.pendings[i]? with
    | none => a
    | some p =>
      { ctrl := match r with
                | some b => resolveOk p b a.ctrl
                | none => resolveFail p a.ctrl
        pendings := a.pendings.eraseIdx i }

/-- Execution of an interleaving schedule. -/
def asyncRun (evs : List AsyncEv) (a : AsyncState) : AsyncState :=
  evs.foldl asyncStep a

/-! Event counting helpers over the instrumentation log. -/

/-- Test for a synthesis-call event. -/
def isSynthEv : Ev → Bool
  | .synth _ _ => true
  | _ => false

/-- Test for a loading-state write. -/
def isLoadingEv : Ev → Bool
  | .loadingSet _ => true
  | _ => false

/-- Test for an error alert. -/
def isAlertEv : Ev → Bool
  | .alertShown => true
  | _ => false

/-- Test for an output-context creation. -/
def isCtxCreateEv : Ev → Bool
  | .ctxCreate => true
  | _ => false

/-- Test for an output-context close. -/
def isCtxCloseEv : Ev → Bool
  | .ctxClose => true
  | _ => false

/-- Number of events satisfying `p` in a log. -/
def countEv (p : Ev → Bool) (l : List Ev) : Nat :=
  (l.filter p).length

/-- Number of synthesis-provider calls recorded in a log. -/
def synthCount (l : List Ev) : Nat := countEv isSynthEv l

/-- Number of loading-state writes recorded in a log. -/
def loadingCount (l : List Ev) : Nat := countEv isLoadingEv l

/-- Number of error alerts recorded in a log. -/
def alertCount (l : List Ev) : Nat := countEv isAlertEv l

/-- Number of output-context creations recorded in a log. -/
def createdCount (l : List Ev) : Nat := countEv isCtxCreateEv l

/-- Number of output-context closes recorded in a log. -/
def closeCount (l : List Ev) : Nat := countEv isCtxCloseEv l

/-- Test for a play request among user-interface events. -/
def isPlayEv : UiEvent → Bool
  | .play _ _ _ => true
  | _ => false

/-- Context bookkeeping invariant: the number of output-context creations so
far is one exactly when a context currently exists, and the context has
never been closed mid-session. -/
def ctxInv (s : CtrlState) : Prop :=
  createdCount s.log = (if s.ctx.isSome then 1 else 0) ∧ closeCount s.log = 0

/-- Interleaving schedule exhibiting the lost-update race of `handlePlay`:
play(original) is issued and suspends at its synthesis call; play(simplified)
is issued and suspends likewise; simplified's synthesis resolves and starts
playback; finally the abandoned original's synthesis resolves late. -/
def raceSchedule : List AsyncEv :=
  [AsyncEv.issue TextType.original "The original text",
   AsyncEv.issue TextType.simplified "The simplified text",
   AsyncEv.settle 1 (some { id := 100 }),
   AsyncEv.settle 0 (some { id := 200 })]

/-- Fresh component over an empty session for the race schedule. -/
def raceInit : AsyncState :=
  { ctrl := initState "English" "texto", pendings := [] }

/-- Session state after playing the translated variant in Spanish, switching
the language to English and then back to Spanish: the cache still holds the
entry keyed `"translated_Spanish"` from the first play. -/
def revisitSession : CtrlState :=
  run [UiEvent.play TextType.translated "Hola" (some { id := 1 }),
       UiEvent.langChange "English" (some "Hello"),
       UiEvent.langChange "Spanish" (some "Hola")]
    (initState "Spanish" "Hola")

/-- Replay of the translated variant right after the language change back to
Spanish; the provider would return a fresh buffer if it were called. -/
def revisitReplay : CtrlState :=
  step revisitSession (UiEvent.play TextType.translated "Hola" (some { id := 9 }))

/-! PCM decoder: `decodeAudioData` in `services/geminiService.ts` lines
180-197, as invoked by `generateSpeech`. -/

/-- Decode-time structural failures.  `malformedAudioError` models the
`RangeError` thrown by `new Int16Array(data.buffer)` when the byte length is
not a whole multiple of 2. -/
inductive DecodeError
  | malformedAudioError
deriving DecidableEq, Repr

/-- Reassembly of one signed 16-bit little-endian sample from its two bytes,
as performed by viewing the byte buffer through an `Int16Array`. -/
def toInt16 (lo hi : Nat) : Int :=
  let u := lo + 256 * hi
  if u < 32768 then (u : Int) else (u : Int) - 65536

/-- The sequence of Int16 samples an `Int16Array` view exposes over an
even-length little-endian byte buffer. -/
def bytesToInt16 : List Nat → List Int
  | lo :: hi :: rest => toInt16 lo hi :: bytesToInt16 rest
  | _ => []

/-- The decoded buffer produced by `ctx.createBuffer` and the per-channel
copy loops: `channelData` has one sample list per channel. -/
structure DecodedAudio where
  numChannels : Nat
  frameCount : Nat
  sampleRate : Nat
  channelData : List (List ℚ)
deriving DecidableEq, Repr

/-- `decodeAudioData(data, ctx, sampleRate, numChannels)`: view the bytes as
Int16 samples (throws on odd byte length), compute
`frameCount = dataInt16.length / numChannels`, and fill each channel with
`dataInt16[i * numChannels + channel] / 32768.0`.

On a sample count not divisible by `numChannels` the JavaScript division is
fractional; `createBuffer` truncates it to an integer frame count and the
copy loop's writes past the channel length are silently dropped, so the
observable result is the floor — which `Nat` division produces directly. -/
def decodeAudioData (data : List Nat) (sampleRate numChannels : Nat) :
    Except DecodeError DecodedAudio :=
  if data.length % 2 ≠ 0 then .error DecodeError.malformedAudioError
  else
    let dataInt16 := bytesToInt16 data
    let frameCount := dataInt16.length / numChannels
    .ok { numChannels := numChannels
          frameCount := frameCount
          sampleRate := sampleRate
          channelData :=
            (List.range numChannels).map (fun channel =>
              (List.range frameCount).map (fun i =>
                ((dataInt16.getD (i * numChannels + channel) 0 : Int) : ℚ) / 32768)) }

/-! Speech synthesis client: `generateSpeech` in `services/geminiService.ts`
lines 126-167. -/

/-- One part of a candidate's content; `inlineData` carries the audio
payload.  The base64 string of the response is modelled by the byte list its
decoding (`atob` + `charCodeAt` into a `Uint8Array`) yields. -/
structure GenPart where
  inlineData : Option (List Nat)
deriving DecidableEq, Repr

/-- Content of a response candidate. -/
structure GenContent where
  parts : List GenPart
deriving DecidableEq, Repr

/-- One response candidate. -/
structure GenCandidate where
  content : Option GenContent
deriving DecidableEq, Repr

/-- Outcome of the provider round-trip performed by `generateSpeech`: the
call either throws or returns a response whose `candidates` field may be
absent. -/
inductive ProviderOutcome
  | throwErr
  | respond (candidates : Option (List GenCandidate))
deriving DecidableEq, Repr

/-- The optional-chaining extraction
`response.candidates?.[0]?.content?.parts?.[0]?.inlineData?.data`. -/
def firstAudioPayload (candidates : Option (List GenCandidate)) : Option (List Nat) :=
  (((candidates.bind List.head?).bind GenCandidate.content).bind
      (fun c => c.parts.head?)).bind GenPart.inlineData

/-- The single failure the caller of `generateSpeech` can observe: every
internal failure is caught and rethrown as `Error("Failed to generate
speech.")`. -/
inductive SynthError
  | synthesisProviderError
deriving DecidableEq, Repr

/-- `generateSpeech`: call the provider; extract the first inline audio
payload, throwing if absent; decode it at 24000 Hz mono.  The enclosing
try/catch converts a provider throw, a missing payload and a decode failure
alike into the one uniform error. -/
def generateSpeech (out : ProviderOutcome) : Except SynthError DecodedAudio :=
  match out with
  | .throwErr => .error SynthError.synthesisProviderError
  | .respond candidates =>
    match firstAudioPayload candidates with
    | none => .error SynthError.synthesisProviderError
    | some bytes =>
      match decodeAudioData bytes 24000 1 with
      | .ok buf => .ok buf
      | .error _ => .error SynthError.synthesisProviderError

/-! Vision pipeline audit fallback: `processImage` in
`services/geminiService.ts` lines 44-107 and `CRITICAL_KEYWORDS` in
`constants.ts`. -/

/-- The structured content returned by the vision call
(`ProcessedContent` in `types.ts`). -/
structure ProcessedContent where
  originalText : String
  simplifiedText : String
  translatedText : String
  language : String
  confidence : ℚ
  requiresAudit : Bool
deriving DecidableEq, Repr

/-- The safety keyword list of `constants.ts` lines 57-59. -/
def CRITICAL_KEYWORDS : List String :=
  ["dosage", "medicine", "warning", "danger", "caution", "prescription",
   "side effects", "emergency"]

/-- Character-list test that `hay` starts with `pat`. -/
def listStartsWith : List Char → List Char → Bool
  | _, [] => true
  | [], _ :: _ => false
  | h :: t, p :: ps => h == p && listStartsWith t ps

/-- JavaScript `String.prototype.includes`: some suffix of `hay` starts with
`pat`. -/
def strIncludes : List Char → List Char → Bool
  | [], pat => pat.isEmpty
  | h :: t, pat => listStartsWith (h :: t) pat || strIncludes t pat

/-- JavaScript `toLowerCase()` restricted to the ASCII range, which is all
the keyword matching depends on. -/
def lowerStr (s : String) : List Char :=
  s.data.map Char.toLower

/-- The post-parse fallback of `processImage` (lines 96-101): if the
extracted original text, lowercased, includes any critical keyword, force
`requiresAudit` to true; otherwise keep the provider's flag. -/
def processImageResult (data : ProcessedContent) : ProcessedContent :=
  let isCritical :=
    CRITICAL_KEYWORDS.any (fun kw => strIncludes (lowerStr data.originalText) kw.data)
  if isCritical then { data with requiresAudit := true } else data

/-- `processImage` from the point the provider response is parsed: the
network call, JSON parsing and missing-text check are abstracted into the
`parsed` argument (`none` models every path that throws before the fallback
runs). -/
def processImage (parsed : Option ProcessedContent) : Except String ProcessedContent :=
  match parsed with
  | none => .error "Failed to process image."
  | some data => .ok (processImageResult data)

/-! Helper lemmas about the event counters. -/

theorem countEv_append (p : Ev → Bool) (l1 l2 : List Ev) :
    countEv p (l1 ++ l2) = countEv p l1 + countEv p l2 := by
  simp [countEv, List.filter_append]

theorem countEv_singleton (p : Ev → Bool) (e : Ev) :
    countEv p [e] = if p e then 1 else 0 := by
  cases h : p e <;> simp [countEv, List.filter, h]

theorem countEv_nil (p : Ev → Bool) : countEv p [] = 0 := rfl

theorem countEv_cons (p : Ev → Bool) (e : Ev) (l : List Ev) :
    countEv p (e :: l) = (if p e then 1 else 0) + countEv p l := by
  cases h : p e <;> simp [countEv, List.filter_cons, h, Nat.add_comm]

/-! Helper lemmas about `stopAudio`. -/

theorem stopAudio_eq (s : CtrlState) :
    stopAudio s =
      match s.sourceRef with
      | some id =>
        { s with sourceRef := none, active := none
                 started := s.started.filter (fun p => p.1 != id)
                 log := s.log ++ [Ev.srcStop id] }
      | none => { s with active := none } := by
  unfold stopAudio
  cases s.sourceRef with
  | none => rfl
  | some id =>
    dsimp only
    split <;> rfl

theorem stopAudio_active (s : CtrlState) : (stopAudio s).active = none := by
  rw [stopAudio_eq]; cases s.sourceRef <;> rfl

theorem stopAudio_sourceRef (s : CtrlState) : (stopAudio s).sourceRef = none := by
  rw [stopAudio_eq]; cases s.sourceRef <;> rfl

theorem stopAudio_ctx (s : CtrlState) : (stopAudio s).ctx = s.ctx := by
  rw [stopAudio_eq]; cases s.sourceRef <;> rfl

theorem stopAudio_cache (s : CtrlState) : (stopAudio s).cache = s.cache := by
  rw [stopAudio_eq]; cases s.sourceRef <;> rfl

theorem stopAudio_loading (s : CtrlState) : (stopAudio s).loading = s.loading := by
  rw [stopAudio_eq]; cases s.sourceRef <;> rfl

theorem stopAudio_currentLanguage (s : CtrlState) :
    (stopAudio s).currentLanguage = s.currentLanguage := by
  rw [stopAudio_eq]; cases s.sourceRef <;> rfl

theorem stopAudio_settingsLang (s : CtrlState) :
    (stopAudio s).settingsLang = s.settingsLang := by
  rw [stopAudio_eq]; cases s.sourceRef <;> rfl

theorem countEv_stopAudio (p : Ev → Bool) (hp : ∀ id, p (Ev.srcStop id) = false)
    (s : CtrlState) : countEv p (stopAudio s).log = countEv p s.log := by
  rw [stopAudio_eq]
  cases s.sourceRef with
  | none => rfl
  | some id => simp [countEv_append, countEv_singleton, hp]

theorem synthCount_stopAudio (s : CtrlState) :
    synthCount (stopAudio s).log = synthCount s.log :=
  countEv_stopAudio _ (fun _ => rfl) s

theorem loadingCount_stopAudio (s : CtrlState) :
    loadingCount (stopAudio s).log = loadingCount s.log :=
  countEv_stopAudio _ (fun _ => rfl) s

theorem alertCount_stopAudio (s : CtrlState) :
    alertCount (stopAudio s).log = alertCount s.log :=
  countEv_stopAudio _ (fun _ => rfl) s

theorem createdCount_stopAudio (s : CtrlState) :
    createdCount (stopAudio s).log = createdCount s.log :=
  countEv_stopAudio _ (fun _ => rfl) s

theorem closeCount_stopAudio (s : CtrlState) :
    closeCount (stopAudio s).log = closeCount s.log :=
  countEv_stopAudio _ (fun _ => rfl) s

theorem ctrlState_eta_active (u : CtrlState) (h : u.active = none) :
    ({ u with active := none } : CtrlState) = u := by
  cases u
  dsimp at h
  subst h
  rfl

/-! Helper lemmas about `finishPlay` and the play-path state transformers. -/

theorem finishPlay_active (t : TextType) (b : AudioBuf) (s : CtrlState) :
    (finishPlay t b s).active = some t := by
  unfold finishPlay
  cases h : s.ctx with
  | none => rfl
  | some cs => cases cs <;> rfl

theorem finishPlay_ctx (t : TextType) (b : AudioBuf) (s : CtrlState) :
    (finishPlay t b s).ctx = some CtxState.running := by
  unfold finishPlay
  cases h : s.ctx with
  | none => rfl
  | some cs => cases cs <;> first | rfl | (dsimp only; exact h)

theorem finishPlay_cache (t : TextType) (b : AudioBuf) (s : CtrlState) :
    (finishPlay t b s).cache = s.cache := by
  unfold finishPlay
  cases h : s.ctx with
  | none => rfl
  | some cs => cases cs <;> rfl

theorem finishPlay_currentLanguage (t : TextType) (b : AudioBuf) (s : CtrlState) :
    (finishPlay t b s).currentLanguage = s.currentLanguage := by
  unfold finishPlay
  cases h : s.ctx with
  | none => rfl
  | some cs => cases cs <;> rfl

theorem playingBuf_finishPlay (t : TextType) (b : AudioBuf) (s : CtrlState) :
    playingBuf (finishPlay t b s) = some b := by
  unfold playingBuf finishPlay lookupStarted
  cases h : s.ctx with
  | none => simp [List.find?]
  | some cs => cases cs <;> simp [List.find?]

theorem countEv_finishPlay (p : Ev → Bool) (hps : ∀ id, p (Ev.srcStart id) = false)
    (hpc : p Ev.ctxCreate = false) (hpr : p Ev.ctxResume = false)
    (t : TextType) (b : AudioBuf) (s : CtrlState) :
    countEv p (finishPlay t b s).log = countEv p s.log := by
  unfold finishPlay
  cases h : s.ctx with
  | none => simp [countEv_append, countEv_singleton, countEv_cons, countEv_nil, hps, hpc, hpr]
  | some cs => cases cs <;> simp [countEv_append, countEv_singleton, countEv_cons, countEv_nil, hps, hpc, hpr]

theorem synthCount_finishPlay (t : TextType) (b : AudioBuf) (s : CtrlState) :
    synthCount (finishPlay t b s).log = synthCount s.log :=
  countEv_finishPlay _ (fun _ => rfl) rfl rfl t b s

theorem closeCount_finishPlay (t : TextType) (b : AudioBuf) (s : CtrlState) :
    closeCount (finishPlay t b s).log = closeCount s.log :=
  countEv_finishPlay _ (fun _ => rfl) rfl rfl t b s

theorem createdCount_finishPlay (t : TextType) (b : AudioBuf) (s : CtrlState) :
    createdCount (finishPlay t b s).log =
      createdCount s.log + (if s.ctx = none then 1 else 0) := by
  unfold finishPlay
  cases h : s.ctx with
  | none => simp [createdCount, countEv_append, countEv_singleton, countEv_cons, countEv_nil, isCtxCreateEv]
  | some cs =>
    cases cs <;>
      simp [createdCount, countEv_append, countEv_singleton, countEv_cons, countEv_nil, isCtxCreateEv]

theorem synthCount_loadState (t : TextType) (s : CtrlState) :
    synthCount (loadState t s).log = synthCount s.log := by
  simp [loadState, synthCount, countEv_append, countEv_singleton, isSynthEv]

theorem synthCount_issueSynth (k lang : String) (s : CtrlState) :
    synthCount (issueSynth k lang s).log = synthCount s.log + 1 := by
  simp [issueSynth, synthCount, countEv_append, countEv_singleton, isSynthEv]

theorem createdCount_loadState (t : TextType) (s : CtrlState) :
    createdCount (loadState t s).log = createdCount s.log := by
  simp [loadState, createdCount, countEv_append, countEv_singleton, isCtxCreateEv]

theorem createdCount_issueSynth (k lang : String) (s : CtrlState) :
    createdCount (issueSynth k lang s).log = createdCount s.log := by
  simp [issueSynth, createdCount, countEv_append, countEv_singleton, isCtxCreateEv]

theorem closeCount_loadState (t : TextType) (s : CtrlState) :
    closeCount (loadState t s).log = closeCount s.log := by
  simp [loadState, closeCount, countEv_append, countEv_singleton, isCtxCloseEv]

theorem closeCount_issueSynth (k lang : String) (s : CtrlState) :
    closeCount (issueSynth k lang s).log = closeCount s.log := by
  simp [issueSynth, closeCount, countEv_append, countEv_singleton, isCtxCloseEv]

/-! Helper lemmas abut the cache association list. -/

theorem lookupCache_cons_self (k : String) (b : AudioBuf) (c : List (String × AudioBuf)) :
    lookupCache ((k, b) :: c) k = some b := by
  simp [lookupCache, List.find?]

theorem lookupCache_cons_ne (k' k : String) (b : AudioBuf) (c : List (String × AudioBuf))
    (h : k' ≠ k) : lookupCache ((k', b) :: c) k = lookupCache c k := by
  simp [lookupCache, List.find?, show (k' == k) = false from beq_eq_false_iff_ne.mpr h]

/-! Helper lemmas about the Int16 view of the byte buffer. -/

theorem toInt16_bounds (lo hi : Nat) (hlo : lo < 256) (hhi : hi < 256) :
    -32768 ≤ toInt16 lo hi ∧ toInt16 lo hi ≤ 32767 := by
  unfold toInt16
  dsimp only
  split <;> omega

theorem bytesToInt16_length : ∀ data : List Nat,
    (bytesToInt16 data).length = data.length / 2
  | [] => by simp [bytesToInt16]
  | [_] => by simp [bytesToInt16]
  | _ :: _ :: rest => by
    have ih := bytesToInt16_length rest
    simp only [bytesToInt16, List.length_cons, ih]
    omega

theorem bytesToInt16_getD : ∀ (data : List Nat) (k : Nat), 2 * k + 1 < data.length →
    (bytesToInt16 data).getD k 0 =
      toInt16 (data.getD (2 * k) 0) (data.getD (2 * k + 1) 0)
  | [], k, h => by simp at h
  | [_], k, h => by simp at h
  | lo :: hi :: rest, 0, _ => by simp [bytesToInt16]
  | lo :: hi :: rest, k + 1, h => by
    have hlt : 2 * k + 1 < rest.length := by
      simp only [List.length_cons] at h
      omega
    have ih := bytesToInt16_getD rest k hlt
    have e1 : 2 * (k + 1) = 2 * k + 1 + 1 := by omega
    have e2 : 2 * (k + 1) + 1 = 2 * k + 1 + 1 + 1 := by omega
    simp only [bytesToInt16, List.getD_cons_succ, e1, e2, ih]

theorem getD_lt_of_bytes (data : List Nat) (hbytes : ∀ b ∈ data, b < 256)
    (j : Nat) (hj : j < data.length) : data.getD j 0 < 256 := by
  rw [List.getD_eq_getElem?_getD, List.getElem?_eq_getElem hj]
  exact hbytes _ (List.getElem_mem hj)

theorem getD_range_map {α : Type} (f : Nat → α) (d : α) (n i : Nat) (h : i < n) :
    ((List.range n).map f).getD i d = f i := by
  rw [List.getD_eq_getElem?_getD, List.getElem?_map]
  rw [List.getElem?_eq_getElem (by simpa using h)]
  simp

/-! Claim theorems for the PCM decoder. -/

/-- Claim C3: for every byte buffer of even length (bytes being values below
256), `decodeAudioData` succeeds with `frameCount = (byteLength / 2) /
channelCount` — trailing partial frames truncated silently — and every output
sample equals the corresponding signed 16-bit little-endian value divided by
32768, hence lies in [-1, 1]. -/
theorem decodeAudioData_even_spec (data : List Nat) (sr c : Nat)
    (hlen : data.length % 2 = 0) (_hc : 0 < c) (hbytes : ∀ b ∈ data, b < 256) :
    ∃ buf, decodeAudioData data sr c = Except.ok buf ∧
      buf.frameCount = data.length / 2 / c ∧
      buf.channelData.length = c ∧
      (∀ ch, ch < c → (buf.channelData.getD ch []).length = buf.frameCount) ∧
      (∀ ch i, ch < c → i < buf.frameCount →
        (buf.channelData.getD ch []).getD i 0 =
          ((toInt16 (data.getD (2 * (i * c + ch)) 0)
              (data.getD (2 * (i * c + ch) + 1) 0) : ℤ) : ℚ) / 32768 ∧
        -1 ≤ (buf.channelData.getD ch []).getD i 0 ∧
        (buf.channelData.getD ch []).getD i 0 ≤ 1) := by
  have hne : ¬ data.length % 2 ≠ 0 := by omega
  refine ⟨{ numChannels := c
            frameCount := (bytesToInt16 data).length / c
            sampleRate := sr
            channelData :=
              (List.range c).map (fun channel =>
                (List.range ((bytesToInt16 data).length / c)).map (fun i =>
                  ((bytesToInt16 data).getD (i * c + channel) 0 : ℚ) / 32768)) },
          ?_, ?_, ?_, ?_, ?_⟩
  · unfold decodeAudioData
    rw [if_neg hne]
  · dsimp only
    rw [bytesToInt16_length]
  · simp
  · intro ch hch
    dsimp only
    rw [getD_range_map _ _ _ _ hch]
    simp
  · intro ch i hch hi
    dsimp only at hi ⊢
    rw [getD_range_map _ _ _ _ hch, getD_range_map _ _ _ _ hi]
    have hkd : i * c + ch < (bytesToInt16 data).length := by
      have h1 : (i + 1) * c ≤ (bytesToInt16 data).length / c * c :=
        Nat.mul_le_mul_right c hi
      have h2 : (bytesToInt16 data).length / c * c ≤ (bytesToInt16 data).length :=
        Nat.div_mul_le_self _ _
      calc i * c + ch < i * c + c := by omega
        _ = (i + 1) * c := by ring
        _ ≤ _ := le_trans h1 h2
    have h2k : 2 * (i * c + ch) + 1 < data.length := by
      rw [bytesToInt16_length] at hkd
      omega
    rw [bytesToInt16_getD data (i * c + ch) h2k]
    set v : ℤ := toInt16 (data.getD (2 * (i * c + ch)) 0)
      (data.getD (2 * (i * c + ch) + 1) 0) with hv
    have hb1 : data.getD (2 * (i * c + ch)) 0 < 256 :=
      getD_lt_of_bytes data hbytes _ (by omega)
    have hb2 : data.getD (2 * (i * c + ch) + 1) 0 < 256 :=
      getD_lt_of_bytes data hbytes _ (by omega)
    obtain ⟨hlo, hhi⟩ := toInt16_bounds _ _ hb1 hb2
    rw [← hv] at hlo hhi
    refine ⟨rfl, ?_, ?_⟩
    · rw [le_div_iff₀ (by norm_num : (0:ℚ) < 32768)]
      have h1 : (-32768 : ℚ) ≤ (v : ℚ) := by exact_mod_cast hlo
      linarith
    · rw [div_le_one (by norm_num : (0:ℚ) < 32768)]
      have h2 : (v : ℚ) ≤ 32767 := by exact_mod_cast hhi
      linarith

/-- Witness for C3 at the concrete buffer `[0, 128, 255, 127]` (the samples
-32768 and 32767, mono). -/
theorem decodeAudioData_even_spec_witness :
    (([0, 128, 255, 127] : List Nat).length % 2 = 0) ∧
    ∃ buf, decodeAudioData [0, 128, 255, 127] 24000 1 = Except.ok buf ∧
      buf.frameCount = 2 := by
  refine ⟨by decide, ?_⟩
  obtain ⟨buf, h1, h2, -, -, -⟩ :=
    decodeAudioData_even_spec [0, 128, 255, 127] 24000 1 (by decide) (by decide) (by decide)
  exact ⟨buf, h1, by rw [h2]; rfl⟩

/-- Claim C4: for every byte buffer whose length is odd, decoding always
fails with the malformed-audio error (the `RangeError` of the `Int16Array`
view). -/
theorem decodeAudioData_odd_malformed (data : List Nat) (sr c : Nat)
    (hlen : data.length % 2 = 1) :
    decodeAudioData data sr c = Except.error DecodeError.malformedAudioError := by
  unfold decodeAudioData
  rw [if_pos (by omega)]

/-- Witness for C4 at the one-byte buffer `[37]`. -/
theorem decodeAudioData_odd_malformed_witness :
    (([37] : List Nat).length % 2 = 1) ∧
    decodeAudioData [37] 24000 1 = Except.error DecodeError.malformedAudioError :=
  ⟨by decide, decodeAudioData_odd_malformed [37] 24000 1 (by decide)⟩

/-! Claim theorems for the speech-synthesis client and the audit fallback. -/

/-- Claim C5: `generateSpeech` fails in each of the three cases — the
provider call throws, the response has no candidate, or the response has no
inline audio payload — and the error surfaced to the caller is the same
single kind in every failing case. -/
theorem generateSpeech_uniform_failure :
    generateSpeech ProviderOutcome.throwErr =
      Except.error SynthError.synthesisProviderError ∧
    (∀ candidates : Option (List GenCandidate), candidates.bind List.head? = none →
      generateSpeech (ProviderOutcome.respond candidates) =
        Except.error SynthError.synthesisProviderError) ∧
    (∀ candidates : Option (List GenCandidate), firstAudioPayload candidates = none →
      generateSpeech (ProviderOutcome.respond candidates) =
        Except.error SynthError.synthesisProviderError) ∧
    (∀ o₁ o₂ e₁ e₂, generateSpeech o₁ = Except.error e₁ →
      generateSpeech o₂ = Except.error e₂ → e₁ = e₂) := by
  refine ⟨rfl, ?_, ?_, ?_⟩
  · intro candidates h
    have hp : firstAudioPayload candidates = none := by
      simp [firstAudioPayload, h]
    simp [generateSpeech, hp]
  · intro candidates h
    simp [generateSpeech, h]
  · intro o₁ o₂ e₁ e₂ _ _
    cases e₁
    cases e₂
    rfl

/-- Witness for C5: the provider throwing, a response with no candidates,
and a candidate carrying no inline audio all yield the one provider
error. -/
theorem generateSpeech_uniform_failure_witness :
    generateSpeech ProviderOutcome.throwErr =
      Except.error SynthError.synthesisProviderError ∧
    generateSpeech (ProviderOutcome.respond none) =
      Except.error SynthError.synthesisProviderError ∧
    generateSpeech (ProviderOutcome.respond (some [{ content := none }])) =
      Except.error SynthError.synthesisProviderError := by
  refine ⟨generateSpeech_uniform_failure.1, ?_, ?_⟩
  · exact generateSpeech_uniform_failure.2.1 none rfl
  · exact generateSpeech_uniform_failure.2.2.1 (some [{ content := none }]) rfl

/-- Claim C10: whenever `processImage` returns a result whose extracted
original text contains (lowercased) one of the critical keywords, the
returned `requiresAudit` flag is true, regardless of what the provider
reported. -/
theorem processImage_criticalKeywords_audit (parsed : Option ProcessedContent)
    (result : ProcessedContent) (h : processImage parsed = Except.ok result)
    (hkw : ∃ kw ∈ CRITICAL_KEYWORDS,
        strIncludes (lowerStr result.originalText) kw.data = true) :
    result.requiresAudit = true := by
  match parsed with
  | none => simp [processImage] at h
  | some data =>
    simp only [processImage, Except.ok.injEq] at h
    subst h
    have ho : (processImageResult data).originalText = data.originalText := by
      unfold processImageResult
      dsimp only
      split <;> rfl
    rw [ho] at hkw
    have hcrit :
        CRITICAL_KEYWORDS.any
          (fun kw => strIncludes (lowerStr data.originalText) kw.data) = true := by
      rw [List.any_eq_true]
      obtain ⟨kw, hmem, hs⟩ := hkw
      exact ⟨kw, hmem, hs⟩
    unfold processImageResult
    simp [hcrit]

/-- Witness for C10: a text mentioning "Medicine" with the provider flag
false still comes back with `requiresAudit = true`. -/
theorem processImage_criticalKeywords_audit_witness :
    ∃ result, processImage (some
        { originalText := "Take this Medicine twice daily"
          simplifiedText := ""
          translatedText := ""
          language := "en"
          confidence := 0
          requiresAudit := false }) = Except.ok result ∧
      result.requiresAudit = true := by
  refine ⟨_, rfl, ?_⟩
  exact processImage_criticalKeywords_audit
    (some { originalText := "Take this Medicine twice daily", simplifiedText := ""
            translatedText := "", language := "en", confidence := 0, requiresAudit := false })
    _ rfl ⟨"medicine", by decide, by decide⟩

/-! Claim theorems for the stop path and the empty-text guard. -/

/-- Claim C7: stop is idempotent and total — stopping twice in a row, or
stopping when nothing was ever played, raises no error and leaves the
playback state idle; a runtime error from stopping an already-stopped handle
is swallowed, never propagated. -/
theorem stopAudio_idempotent_total (s : CtrlState) :
    (stopAudio s).active = none ∧
    (stopAudio s).sourceRef = none ∧
    stopAudio (stopAudio s) = stopAudio s ∧
    (s.sourceRef = none → s.active = none → stopAudio s = s) ∧
    (∀ id, s.sourceRef = some id → lookupStarted s.started id = none →
      stopHandle (lookupStarted s.started id).isNone = Except.error "InvalidStateError" ∧
      (stopAudio s).active = none) := by
  refine ⟨stopAudio_active s, stopAudio_sourceRef s, ?_, ?_, ?_⟩
  · have h1 : (stopAudio s).sourceRef = none := stopAudio_sourceRef s
    rw [stopAudio_eq (stopAudio s)]
    split
    · next id heq => rw [h1] at heq; simp at heq
    · exact ctrlState_eta_active _ (stopAudio_active s)
  · intro h1 h2
    rw [stopAudio_eq s]
    split
    · next id heq => rw [h1] at heq; simp at heq
    · exact ctrlState_eta_active s h2
  · intro id h1 h2
    constructor
    · rw [h2]
      rfl
    · exact stopAudio_active s

/-- Witness for C7: a state holding a stale source handle (the handle's
stop throws) still stops to idle, and stopping again changes nothing. -/
theorem stopAudio_idempotent_total_witness :
    (stopAudio { initState "en" "t" with sourceRef := some 0 }).active = none ∧
    stopAudio (stopAudio { initState "en" "t" with sourceRef := some 0 }) =
      stopAudio { initState "en" "t" with sourceRef := some 0 } ∧
    stopHandle (lookupStarted
        ({ initState "en" "t" with sourceRef := some 0 } : CtrlState).started 0).isNone =
      Except.error "InvalidStateError" := by
  have h := stopAudio_idempotent_total { initState "en" "t" with sourceRef := some 0 }
  exact ⟨h.1, h.2.2.1, (h.2.2.2.2 0 rfl rfl).1⟩

theorem handlePlaySeq_empty (r : Option AudioBuf) (t : TextType) (s : CtrlState) :
    handlePlaySeq r t "" s = stopAudio s := by
  unfold handlePlaySeq phase1
  by_cases h : s.active = some t
  · rw [if_pos h]
  · rw [if_neg h]
    unfold phase1Go
    rw [if_pos rfl]

/-- Claim C9: a play request with empty text performs the initial stop and
nothing else — no synthesis call is issued, no loading-state write happens,
no error alert is shown, and the loading state is untouched. -/
theorem emptyText_noop (r : Option AudioBuf) (t : TextType) (s : CtrlState) :
    handlePlaySeq r t "" s = stopAudio s ∧
    synthCount (handlePlaySeq r t "" s).log = synthCount s.log ∧
    loadingCount (handlePlaySeq r t "" s).log = loadingCount s.log ∧
    alertCount (handlePlaySeq r t "" s).log = alertCount s.log ∧
    (handlePlaySeq r t "" s).loading = s.loading := by
  have he : handlePlaySeq r t "" s = stopAudio s := handlePlaySeq_empty r t s
  refine ⟨he, ?_, ?_, ?_, ?_⟩ <;> rw [he]
  · exact synthCount_stopAudio s
  · exact loadingCount_stopAudio s
  · exact alertCount_stopAudio s
  · exact stopAudio_loading s

/-! Characterisation of a completed play request in the three regimes of
`handlePlay`: toggle, cache miss and cache hit. -/

theorem finishPlay_settingsLang (t : TextType) (b : AudioBuf) (s : CtrlState) :
    (finishPlay t b s).settingsLang = s.settingsLang := by
  unfold finishPlay
  cases h : s.ctx with
  | none => rfl
  | some cs => cases cs <;> rfl

theorem loadState_cache (t : TextType) (s : CtrlState) :
    (loadState t s).cache = s.cache := rfl

theorem issueSynth_cache (k lang : String) (s : CtrlState) :
    (issueSynth k lang s).cache = s.cache := rfl

theorem handlePlaySeq_toggle (r : Option AudioBuf) (t : TextType) (text : String)
    (s : CtrlState) (h : s.active = some t) :
    handlePlaySeq r t text s = stopAudio s := by
  unfold handlePlaySeq phase1
  rw [if_pos h]

theorem handlePlaySeq_miss (b : AudioBuf) (t : TextType) (text : String) (s : CtrlState)
    (hactive : ¬ s.active = some t) (htext : ¬ text = "")
    (hmiss : lookupCache s.cache (cacheKey t s.currentLanguage) = none) :
    handlePlaySeq (some b) t text s =
      resolveOk
        { ttype := t, key := cacheKey t s.currentLanguage, text := text, lang := playLang t s }
        b
        (issueSynth (cacheKey t s.currentLanguage) (playLang t s)
          (loadState t (stopAudio s))) := by
  have hcl : (loadState t (stopAudio s)).currentLanguage = s.currentLanguage :=
    stopAudio_currentLanguage s
  have hcc : (loadState t (stopAudio s)).cache = s.cache :=
    stopAudio_cache s
  have hpl : playLang t (loadState t (stopAudio s)) = playLang t s := by
    unfold playLang
    rw [hcl, show (loadState t (stopAudio s)).settingsLang = s.settingsLang from
      stopAudio_settingsLang s]
  unfold handlePlaySeq phase1
  rw [if_neg hactive]
  unfold phase1Go
  rw [if_neg htext]
  dsimp only
  rw [hcl, hcc, hmiss, hpl]

theorem handlePlaySeq_hit (r : Option AudioBuf) (t : TextType) (text : String)
    (s : CtrlState) (b : AudioBuf)
    (hactive : ¬ s.active = some t) (htext : ¬ text = "")
    (hhit : lookupCache s.cache (cacheKey t s.currentLanguage) = some b) :
    handlePlaySeq r t text s = finishPlay t b (loadState t (stopAudio s)) := by
  have hcl : (loadState t (stopAudio s)).currentLanguage = s.currentLanguage :=
    stopAudio_currentLanguage s
  have hcc : (loadState t (stopAudio s)).cache = s.cache :=
    stopAudio_cache s
  unfold handlePlaySeq phase1
  rw [if_neg hactive]
  unfold phase1Go
  rw [if_neg htext]
  dsimp only
  rw [hcl, hcc, hhit]

theorem handlePlaySeq_miss_spec (b : AudioBuf) (t : TextType) (text : String) (s : CtrlState)
    (hactive : ¬ s.active = some t) (htext : ¬ text = "")
    (hmiss : lookupCache s.cache (cacheKey t s.currentLanguage) = none) :
    synthCount (handlePlaySeq (some b) t text s).log = synthCount s.log + 1 ∧
    (handlePlaySeq (some b) t text s).cache =
      (cacheKey t s.currentLanguage, b) :: s.cache ∧
    playingBuf (handlePlaySeq (some b) t text s) = some b ∧
    (handlePlaySeq (some b) t text s).active = some t ∧
    (handlePlaySeq (some b) t text s).currentLanguage = s.currentLanguage ∧
    (handlePlaySeq (some b) t text s).settingsLang = s.settingsLang := by
  rw [handlePlaySeq_miss b t text s hactive htext hmiss]
  unfold resolveOk
  dsimp only
  refine ⟨?_, ?_, playingBuf_finishPlay _ _ _, finishPlay_active _ _ _, ?_, ?_⟩
  · rw [synthCount_finishPlay]
    dsimp only
    rw [synthCount_issueSynth, synthCount_loadState, synthCount_stopAudio]
  · rw [finishPlay_cache]
    dsimp only
    rw [issueSynth_cache, loadState_cache, stopAudio_cache]
  · rw [finishPlay_currentLanguage]
    exact stopAudio_currentLanguage s
  · rw [finishPlay_settingsLang]
    exact stopAudio_settingsLang s

theorem handlePlaySeq_hit_spec (r : Option AudioBuf) (t : TextType) (text : String)
    (s : CtrlState) (b : AudioBuf)
    (hactive : ¬ s.active = some t) (htext : ¬ text = "")
    (hhit : lookupCache s.cache (cacheKey t s.currentLanguage) = some b) :
    synthCount (handlePlaySeq r t text s).log = synthCount s.log ∧
    (handlePlaySeq r t text s).cache = s.cache ∧
    playingBuf (handlePlaySeq r t text s) = some b ∧
    (handlePlaySeq r t text s).active = some t := by
  rw [handlePlaySeq_hit r t text s b hactive htext hhit]
  refine ⟨?_, ?_, playingBuf_finishPlay _ _ _, finishPlay_active _ _ _⟩
  · rw [synthCount_finishPlay, synthCount_loadState, synthCount_stopAudio]
  · rw [finishPlay_cache]
    exact stopAudio_cache s

/-- Claim C6: for a fixed variant, language and text, two consecutive play
requests call the synthesis provider at most once — the first (starting from
a cache miss) calls it exactly once and stores the decoded buffer under the
key; an immediately repeated request toggles playback off with no further
call; and a repeat after natural completion is served from the cache,
playing the identical stored buffer with no further call. -/
theorem play_cache_at_most_one_synthesis (s : CtrlState) (t : TextType) (text : String)
    (b : AudioBuf) (r r' : Option AudioBuf)
    (htext : ¬ text = "") (hactive : ¬ s.active = some t)
    (hmiss : lookupCache s.cache (cacheKey t s.currentLanguage) = none) :
    synthCount (handlePlaySeq (some b) t text s).log = synthCount s.log + 1 ∧
    lookupCache (handlePlaySeq (some b) t text s).cache
      (cacheKey t s.currentLanguage) = some b ∧
    playingBuf (handlePlaySeq (some b) t text s) = some b ∧
    synthCount (handlePlaySeq r t text (handlePlaySeq (some b) t text s)).log =
      synthCount (handlePlaySeq (some b) t text s).log ∧
    synthCount (handlePlaySeq r' t text
        { handlePlaySeq (some b) t text s with active := none }).log =
      synthCount (handlePlaySeq (some b) t text s).log ∧
    playingBuf (handlePlaySeq r' t text
        { handlePlaySeq (some b) t text s with active := none }) = some b := by
  obtain ⟨h1, h2, h3, h4, h5, h6⟩ := handlePlaySeq_miss_spec b t text s hactive htext hmiss
  have hlook : lookupCache (handlePlaySeq (some b) t text s).cache
      (cacheKey t s.currentLanguage) = some b := by
    rw [h2]
    exact lookupCache_cons_self _ _ _
  refine ⟨h1, hlook, h3, ?_, ?_, ?_⟩
  · rw [handlePlaySeq_toggle r t text _ h4]
    exact synthCount_stopAudio _
  · have hact2 : ¬ ({ handlePlaySeq (some b) t text s with active := none } : CtrlState).active
        = some t := by simp
    have hhit2 : lookupCache
        ({ handlePlaySeq (some b) t text s with active := none } : CtrlState).cache
        (cacheKey t ({ handlePlaySeq (some b) t text s with active := none } :
          CtrlState).currentLanguage) = some b := by
      show lookupCache (handlePlaySeq (some b) t text s).cache
        (cacheKey t (handlePlaySeq (some b) t text s).currentLanguage) = some b
      rw [h5]
      exact hlook
    exact (handlePlaySeq_hit_spec r' t text _ b hact2 htext hhit2).1
  · have hact2 : ¬ ({ handlePlaySeq (some b) t text s with active := none } : CtrlState).active
        = some t := by simp
    have hhit2 : lookupCache
        ({ handlePlaySeq (some b) t text s with active := none } : CtrlState).cache
        (cacheKey t ({ handlePlaySeq (some b) t text s with active := none } :
          CtrlState).currentLanguage) = some b := by
      show lookupCache (handlePlaySeq (some b) t text s).cache
        (cacheKey t (handlePlaySeq (some b) t text s).currentLanguage) = some b
      rw [h5]
      exact hlook
    exact (handlePlaySeq_hit_spec r' t text _ b hact2 htext hhit2).2.2.1

/-- Witness for C6: a fresh session playing "hello" (original) synthesizes
once; replaying after natural completion adds no synthesis call. -/
theorem play_cache_at_most_one_synthesis_witness :
    synthCount (handlePlaySeq (some ⟨5⟩) TextType.original "hello"
        (initState "English" "tr")).log =
      synthCount (initState "English" "tr").log + 1 ∧
    synthCount (handlePlaySeq (some ⟨7⟩) TextType.original "hello"
        { handlePlaySeq (some ⟨5⟩) TextType.original "hello" (initState "English" "tr") with
          active := none }).log =
      synthCount (handlePlaySeq (some ⟨5⟩) TextType.original "hello"
        (initState "English" "tr")).log := by
  have h := play_cache_at_most_one_synthesis (initState "English" "tr") TextType.original
    "hello" ⟨5⟩ (some ⟨6⟩) (some ⟨7⟩) (by decide) (by decide) rfl
  exact ⟨h.1, h.2.2.2.2.1⟩

/-! Lemmas about cache keys and cache erasure, toward claim C2. -/

theorem translatedKey_length (l : String) :
    (cacheKey TextType.translated l).length = 11 + l.length := by
  show ("translated_" ++ l).length = 11 + l.length
  rw [String.length_append]
  congr 1

theorem translatedKey_ne_original (l : String) :
    cacheKey TextType.translated l ≠ "original" := by
  intro h
  have h2 := congrArg String.length h
  rw [translatedKey_length] at h2
  have h8 : ("original" : String).length = 8 := by decide
  rw [h8] at h2
  omega

theorem translatedKey_ne_simplified (l : String) :
    cacheKey TextType.translated l ≠ "simplified" := by
  intro h
  have h2 := congrArg String.length h
  rw [translatedKey_length] at h2
  have h10 : ("simplified" : String).length = 10 := by decide
  rw [h10] at h2
  omega

theorem lookupCache_eraseCache_ne (c : List (String × AudioBuf)) (k' k : String)
    (hne : k' ≠ k) :
    lookupCache (eraseCache c k') k = lookupCache c k := by
  induction c with
  | nil => rfl
  | cons p rest ih =>
    obtain ⟨a, b⟩ := p
    show lookupCache (List.filter (fun q => q.1 != k') ((a, b) :: rest)) k =
      lookupCache ((a, b) :: rest) k
    rw [List.filter_cons]
    by_cases hak : a = k
    · subst hak
      have h2 : ((a, b).1 != k') = true := by
        simp only [bne_iff_ne]
        exact fun he => hne (he.symm)
      rw [if_pos h2]
      simp [lookupCache, List.find?]
    · have h3 : ((a, b).1 == k) = false := beq_eq_false_iff_ne.mpr hak
      by_cases h2 : ((a, b).1 != k') = true
      · rw [if_pos h2]
        show lookupCache ((a, b) :: eraseCache rest k') k = _
        rw [lookupCache_cons_ne _ _ _ _ hak, lookupCache_cons_ne _ _ _ _ hak]
        exact ih
      · rw [if_neg h2]
        show lookupCache (eraseCache rest k') k = _
        rw [lookupCache_cons_ne _ _ _ _ hak]
        exact ih

theorem lookupCache_eraseCache_self (c : List (String × AudioBuf)) (k' : String) :
    lookupCache (eraseCache c k') k' = none := by
  induction c with
  | nil => rfl
  | cons p rest ih =>
    obtain ⟨a, b⟩ := p
    show lookupCache (List.filter (fun q => q.1 != k') ((a, b) :: rest)) k' = none
    rw [List.filter_cons]
    by_cases h2 : ((a, b).1 != k') = true
    · rw [if_pos h2]
      have h3 : a ≠ k' := by simpa [bne_iff_ne] using h2
      show lookupCache ((a, b) :: eraseCache rest k') k' = none
      rw [lookupCache_cons_ne _ _ _ _ h3]
      exact ih
    · rw [if_neg h2]
      exact ih

/-! Lemmas about `handleLanguageChange`. -/

theorem langChange_currentLanguage (l : String) (tr : Option String) (s : CtrlState) :
    (handleLanguageChange l tr s).currentLanguage = l := by
  unfold handleLanguageChange
  cases tr with
  | none => exact stopAudio_currentLanguage _
  | some nt =>
    dsimp only
    split <;> exact stopAudio_currentLanguage _

theorem langChange_active (l : String) (tr : Option String) (s : CtrlState) :
    (handleLanguageChange l tr s).active = none := by
  unfold handleLanguageChange
  cases tr with
  | none => exact stopAudio_active _
  | some nt =>
    dsimp only
    split <;> exact stopAudio_active _

theorem langChange_cache (l : String) (tr : Option String) (s : CtrlState) :
    (handleLanguageChange l tr s).cache = s.cache ∨
    (handleLanguageChange l tr s).cache = eraseCache s.cache "translated" := by
  unfold handleLanguageChange
  cases tr with
  | none => exact Or.inl (stopAudio_cache _)
  | some nt =>
    dsimp only
    split
    · right
      show eraseCache (stopAudio { s with currentLanguage := l }).cache "translated" = _
      rw [stopAudio_cache]
    · exact Or.inl (stopAudio_cache _)

theorem langChange_lookup (l : String) (tr : Option String) (s : CtrlState) (k : String)
    (hk : ¬ k = "translated") :
    lookupCache (handleLanguageChange l tr s).cache k = lookupCache s.cache k := by
  rcases langChange_cache l tr s with h | h <;> rw [h]
  exact lookupCache_eraseCache_ne s.cache "translated" k (fun he => hk he.symm)

theorem langChange_lookup_none (l : String) (tr : Option String) (s : CtrlState) (k : String)
    (h : lookupCache s.cache k = none) :
    lookupCache (handleLanguageChange l tr s).cache k = none := by
  by_cases hk : k = "translated"
  · subst hk
    rcases langChange_cache l tr s with h1 | h1 <;> rw [h1]
    · exact h
    · exact lookupCache_eraseCache_self _ _
  · rw [langChange_lookup l tr s k hk]
    exact h

/-! Claim C2: counterexample, amended statement and witness. -/

/-- Counterexample to claim C2 as stated: after playing the translated
variant in Spanish, switching the language to English and back to Spanish,
the subsequent play of the translated variant triggers zero new synthesis
calls, not exactly one — the old `"translated_Spanish"` entry is still in
the cache and is served. -/
theorem langChange_revisit_counterexample :
    ¬ (synthCount revisitReplay.log = synthCount revisitSession.log + 1) ∧
    synthCount revisitReplay.log = synthCount revisitSession.log ∧
    playingBuf revisitReplay = some ⟨1⟩ ∧
    lookupCache revisitSession.cache "translated_Spanish" = some ⟨1⟩ := by
  decide

/-- Claim C2 (amended): changing the active translation language leaves the
original and simplified cache entries untouched; a subsequent play of the
translated variant triggers exactly one new synthesis call provided the new
language's entry is absent from the cache (the old entry is orphaned, not
deleted, so revisiting a previously synthesized language is served from
cache with no call); plays of original or simplified right after, their
entries being cached, trigger no new synthesis call. -/
theorem langChange_invalidation_amended (s : CtrlState) (newLang : String)
    (tr : Option String) (bO bS bT : AudioBuf) (textT textO textS : String)
    (rO rS : Option AudioBuf)
    (hO : lookupCache s.cache "original" = some bO)
    (hS : lookupCache s.cache "simplified" = some bS)
    (hT : lookupCache s.cache (cacheKey TextType.translated newLang) = none)
    (htT : ¬ textT = "") (htO : ¬ textO = "") (htS : ¬ textS = "") :
    lookupCache (handleLanguageChange newLang tr s).cache "original" = some bO ∧
    lookupCache (handleLanguageChange newLang tr s).cache "simplified" = some bS ∧
    synthCount (handlePlaySeq (some bT) TextType.translated textT
        (handleLanguageChange newLang tr s)).log =
      synthCount (handleLanguageChange newLang tr s).log + 1 ∧
    synthCount (handlePlaySeq rO TextType.original textO
        (handlePlaySeq (some bT) TextType.translated textT
          (handleLanguageChange newLang tr s))).log =
      synthCount (handlePlaySeq (some bT) TextType.translated textT
        (handleLanguageChange newLang tr s)).log ∧
    synthCount (handlePlaySeq rS TextType.simplified textS
        (handlePlaySeq (some bT) TextType.translated textT
          (handleLanguageChange newLang tr s))).log =
      synthCount (handlePlaySeq (some bT) TextType.translated textT
        (handleLanguageChange newLang tr s)).log := by
  have e1 : lookupCache (handleLanguageChange newLang tr s).cache "original" = some bO := by
    rw [langChange_lookup newLang tr s "original" (by decide)]
    exact hO
  have e2 : lookupCache (handleLanguageChange newLang tr s).cache "simplified" = some bS := by
    rw [langChange_lookup newLang tr s "simplified" (by decide)]
    exact hS
  have hact1 : ¬ (handleLanguageChange newLang tr s).active = some TextType.translated := by
    rw [langChange_active]
    simp
  have hlang1 : (handleLanguageChange newLang tr s).currentLanguage = newLang :=
    langChange_currentLanguage newLang tr s
  have hmiss1 : lookupCache (handleLanguageChange newLang tr s).cache
      (cacheKey TextType.translated (handleLanguageChange newLang tr s).currentLanguage)
      = none := by
    rw [hlang1]
    exact langChange_lookup_none newLang tr s _ hT
  obtain ⟨m1, m2, m3, m4, m5, m6⟩ := handlePlaySeq_miss_spec bT TextType.translated textT
    (handleLanguageChange newLang tr s) hact1 htT hmiss1
  refine ⟨e1, e2, m1, ?_, ?_⟩
  · have hact2 : ¬ (handlePlaySeq (some bT) TextType.translated textT
        (handleLanguageChange newLang tr s)).active = some TextType.original := by
      rw [m4]
      simp
    have hhit2 : lookupCache (handlePlaySeq (some bT) TextType.translated textT
        (handleLanguageChange newLang tr s)).cache
        (cacheKey TextType.original (handlePlaySeq (some bT) TextType.translated textT
          (handleLanguageChange newLang tr s)).currentLanguage) = some bO := by
      show lookupCache (handlePlaySeq (some bT) TextType.translated textT
        (handleLanguageChange newLang tr s)).cache "original" = some bO
      rw [m2, lookupCache_cons_ne _ _ _ _ (translatedKey_ne_original _)]
      exact e1
    exact (handlePlaySeq_hit_spec rO TextType.original textO _ bO hact2 htO hhit2).1
  · have hact2 : ¬ (handlePlaySeq (some bT) TextType.translated textT
        (handleLanguageChange newLang tr s)).active = some TextType.simplified := by
      rw [m4]
      simp
    have hhit2 : lookupCache (handlePlaySeq (some bT) TextType.translated textT
        (handleLanguageChange newLang tr s)).cache
        (cacheKey TextType.simplified (handlePlaySeq (some bT) TextType.translated textT
          (handleLanguageChange newLang tr s)).currentLanguage) = some bS := by
      show lookupCache (handlePlaySeq (some bT) TextType.translated textT
        (handleLanguageChange newLang tr s)).cache "simplified" = some bS
      rw [m2, lookupCache_cons_ne _ _ _ _ (translatedKey_ne_simplified _)]
      exact e2
    exact (handlePlaySeq_hit_spec rS TextType.simplified textS _ bS hact2 htS hhit2).1

/-- Witness for the amended claim C2 at a concrete session with cached
original and simplified entries, switching to French. -/
theorem langChange_invalidation_amended_witness :
    lookupCache (handleLanguageChange "French" (some "Bonjour")
        { initState "English" "t" with
          cache := [("original", ⟨1⟩), ("simplified", ⟨2⟩)] }).cache "original" = some ⟨1⟩ ∧
    synthCount (handlePlaySeq (some ⟨3⟩) TextType.translated "Bonjour"
        (handleLanguageChange "French" (some "Bonjour")
          { initState "English" "t" with
            cache := [("original", ⟨1⟩), ("simplified", ⟨2⟩)] })).log =
      synthCount (handleLanguageChange "French" (some "Bonjour")
        { initState "English" "t" with
          cache := [("original", ⟨1⟩), ("simplified", ⟨2⟩)] }).log + 1 := by
  have h := langChange_invalidation_amended
    { initState "English" "t" with cache := [("original", ⟨1⟩), ("simplified", ⟨2⟩)] }
    "French" (some "Bonjour") ⟨1⟩ ⟨2⟩ ⟨3⟩ "Bonjour" "tO" "tS" none none
    rfl rfl rfl (by decide) (by decide) (by decide)
  exact ⟨h.1, h.2.2.1⟩

/-! Invariant machinery for the output-context lifecycle (claim C8). -/

theorem issueSynth_ctx (k lang : String) (s : CtrlState) :
    (issueSynth k lang s).ctx = s.ctx := rfl

theorem loadState_ctx (t : TextType) (s : CtrlState) :
    (loadState t s).ctx = s.ctx := rfl

theorem resolveFail_ctx (p : Pending) (s : CtrlState) :
    (resolveFail p s).ctx = s.ctx := rfl

theorem createdCount_resolveFail (p : Pending) (s : CtrlState) :
    createdCount (resolveFail p s).log = createdCount s.log := by
  simp [resolveFail, createdCount, countEv_append, countEv_singleton, isCtxCreateEv]

theorem closeCount_resolveFail (p : Pending) (s : CtrlState) :
    closeCount (resolveFail p s).log = closeCount s.log := by
  simp [resolveFail, closeCount, countEv_append, countEv_singleton, isCtxCloseEv]

theorem langChange_ctx (l : String) (tr : Option String) (s : CtrlState) :
    (handleLanguageChange l tr s).ctx = s.ctx := by
  unfold handleLanguageChange
  cases tr with
  | none => exact stopAudio_ctx _
  | some nt =>
    dsimp only
    split <;> exact stopAudio_ctx _

theorem ctxInv_stopAudio (s : CtrlState) (h : ctxInv s) : ctxInv (stopAudio s) := by
  obtain ⟨h1, h2⟩ := h
  constructor
  · rw [createdCount_stopAudio, stopAudio_ctx]
    exact h1
  · rw [closeCount_stopAudio]
    exact h2

theorem ctxInv_finishPlay (t : TextType) (b : AudioBuf) (s : CtrlState)
    (h : ctxInv s) : ctxInv (finishPlay t b s) := by
  obtain ⟨h1, h2⟩ := h
  constructor
  · rw [createdCount_finishPlay, finishPlay_ctx]
    cases hc : s.ctx with
    | none =>
      rw [hc] at h1
      simp at h1
      simp [h1]
    | some cs =>
      rw [hc] at h1
      simp at h1
      simp [h1, hc]
  · rw [closeCount_finishPlay]
    exact h2

theorem ctxInv_loadState (t : TextType) (s : CtrlState) (h : ctxInv s) :
    ctxInv (loadState t s) := by
  obtain ⟨h1, h2⟩ := h
  constructor
  · rw [createdCount_loadState, loadState_ctx]
    exact h1
  · rw [closeCount_loadState]
    exact h2

theorem ctxInv_issueSynth (k lang : String) (s : CtrlState) (h : ctxInv s) :
    ctxInv (issueSynth k lang s) := by
  obtain ⟨h1, h2⟩ := h
  constructor
  · rw [createdCount_issueSynth, issueSynth_ctx]
    exact h1
  · rw [closeCount_issueSynth]
    exact h2

theorem ctxInv_resolveOk (p : Pending) (b : AudioBuf) (s : CtrlState) (h : ctxInv s) :
    ctxInv (resolveOk p b s) :=
  ctxInv_finishPlay p.ttype b _ h

theorem ctxInv_resolveFail (p : Pending) (s : CtrlState) (h : ctxInv s) :
    ctxInv (resolveFail p s) := by
  obtain ⟨h1, h2⟩ := h
  constructor
  · rw [createdCount_resolveFail, resolveFail_ctx]
    exact h1
  · rw [closeCount_resolveFail]
    exact h2

theorem handlePlaySeq_miss_fail (t : TextType) (text : String) (s : CtrlState)
    (hactive : ¬ s.active = some t) (htext : ¬ text = "")
    (hmiss : lookupCache s.cache (cacheKey t s.currentLanguage) = none) :
    handlePlaySeq none t text s =
      resolveFail
        { ttype := t, key := cacheKey t s.currentLanguage, text := text, lang := playLang t s }
        (issueSynth (cacheKey t s.currentLanguage) (playLang t s)
          (loadState t (stopAudio s))) := by
  have hcl : (loadState t (stopAudio s)).currentLanguage = s.currentLanguage :=
    stopAudio_currentLanguage s
  have hcc : (loadState t (stopAudio s)).cache = s.cache :=
    stopAudio_cache s
  have hpl : playLang t (loadState t (stopAudio s)) = playLang t s := by
    unfold playLang
    rw [hcl, show (loadState t (stopAudio s)).settingsLang = s.settingsLang from
      stopAudio_settingsLang s]
  unfold handlePlaySeq phase1
  rw [if_neg hactive]
  unfold phase1Go
  rw [if_neg htext]
  dsimp only
  rw [hcl, hcc, hmiss, hpl]

theorem ctxInv_handlePlaySeq (r : Option AudioBuf) (t : TextType) (text : String)
    (s : CtrlState) (h : ctxInv s) : ctxInv (handlePlaySeq r t text s) := by
  by_cases ha : s.active = some t
  · rw [handlePlaySeq_toggle r t text s ha]
    exact ctxInv_stopAudio s h
  · by_cases ht : text = ""
    · subst ht
      rw [handlePlaySeq_empty r t s]
      exact ctxInv_stopAudio s h
    · cases hlk : lookupCache s.cache (cacheKey t s.currentLanguage) with
      | some b =>
        rw [handlePlaySeq_hit r t text s b ha ht hlk]
        exact ctxInv_finishPlay _ _ _ (ctxInv_loadState _ _ (ctxInv_stopAudio _ h))
      | none =>
        cases r with
        | some b =>
          rw [handlePlaySeq_miss b t text s ha ht hlk]
          exact ctxInv_resolveOk _ _ _
            (ctxInv_issueSynth _ _ _ (ctxInv_loadState _ _ (ctxInv_stopAudio _ h)))
        | none =>
          rw [handlePlaySeq_miss_fail t text s ha ht hlk]
          exact ctxInv_resolveFail _ _
            (ctxInv_issueSynth _ _ _ (ctxInv_loadState _ _ (ctxInv_stopAudio _ h)))

theorem ctxInv_langChange (l : String) (tr : Option String) (s : CtrlState)
    (h : ctxInv s) : ctxInv (handleLanguageChange l tr s) := by
  unfold handleLanguageChange
  cases tr with
  | none => exact ctxInv_stopAudio _ h
  | some nt =>
    dsimp only
    split <;> exact ctxInv_stopAudio _ h

theorem ctxInv_step (s : CtrlState) (e : UiEvent) (h : ctxInv s) : ctxInv (step s e) := by
  cases e with
  | play t text r => exact ctxInv_handlePlaySeq r t text s h
  | stop => exact ctxInv_stopAudio s h
  | ended => exact h
  | suspendCtx =>
    obtain ⟨h1, h2⟩ := h
    show ctxInv (match s.ctx with
      | some CtxState.running => { s with ctx := some CtxState.suspended }
      | _ => s)
    cases hc : s.ctx with
    | none => exact ⟨h1, h2⟩
    | some cs =>
      cases cs
      · rw [hc] at h1
        exact ⟨by simpa using h1, h2⟩
      · exact ⟨h1, h2⟩
  | langChange l tr => exact ctxInv_langChange l tr s h

theorem ctxInv_run (evs : List UiEvent) (s : CtrlState) (h : ctxInv s) :
    ctxInv (run evs s) := by
  induction evs generalizing s with
  | nil => exact h
  | cons e rest ih => exact ih (step s e) (ctxInv_step s e h)

theorem ctxInv_init (targetLang tr0 : String) : ctxInv (initState targetLang tr0) := by
  constructor <;> rfl

theorem step_ctx_of_not_play (s : CtrlState) (e : UiEvent)
    (hne : isPlayEv e = false) (h : s.ctx = none) : (step s e).ctx = none := by
  cases e with
  | play t text r => simp [isPlayEv] at hne
  | stop => rw [show (step s UiEvent.stop).ctx = (stopAudio s).ctx from rfl, stopAudio_ctx]; exact h
  | ended => exact h
  | suspendCtx =>
    show (match s.ctx with
      | some CtxState.running => { s with ctx := some CtxState.suspended }
      | _ => s).ctx = none
    rw [h]
    exact h
  | langChange l tr => rw [show (step s (UiEvent.langChange l tr)).ctx =
      (handleLanguageChange l tr s).ctx from rfl, langChange_ctx]; exact h

theorem run_ctx_of_no_play (evs : List UiEvent) (s : CtrlState)
    (hnp : ∀ e ∈ evs, isPlayEv e = false) (h : s.ctx = none) : (run evs s).ctx = none := by
  induction evs generalizing s with
  | nil => exact h
  | cons e rest ih =>
    exact ih (step s e) (fun e2 he2 => hnp e2 (List.mem_cons_of_mem e he2))
      (step_ctx_of_not_play s e (hnp e (List.mem_cons_self e rest)) h)

theorem teardown_eq (s : CtrlState) :
    teardown s =
      match (stopAudio s).ctx with
      | some _ => { stopAudio s with ctx := none, log := (stopAudio s).log ++ [Ev.ctxClose] }
      | none => stopAudio s := rfl

theorem teardown_spec (s : CtrlState) :
    closeCount (teardown s).log = closeCount s.log + (if s.ctx.isSome then 1 else 0) ∧
    (teardown s).ctx = none := by
  have hsc := stopAudio_ctx s
  rw [teardown_eq s, hsc]
  cases hc : s.ctx with
  | none =>
    dsimp only
    exact ⟨by rw [closeCount_stopAudio]; simp, hsc.trans hc⟩
  | some cs =>
    dsimp only
    constructor
    · rw [show closeCount ((stopAudio s).log ++ [Ev.ctxClose]) =
          closeCount (stopAudio s).log + 1 from by
            simp [closeCount, countEv_append, countEv_singleton, isCtxCloseEv],
        closeCount_stopAudio]
      simp
    · rfl

theorem play_resume_aux (s : CtrlState) (t : TextType) (text : String) (b : AudioBuf)
    (hsusp : s.ctx = some CtxState.suspended) (ha : ¬ s.active = some t)
    (ht : ¬ text = "") :
    (handlePlaySeq (some b) t text s).ctx = some CtxState.running ∧
    createdCount (handlePlaySeq (some b) t text s).log = createdCount s.log := by
  have hl : (loadState t (stopAudio s)).ctx = s.ctx := stopAudio_ctx s
  cases hlk : lookupCache s.cache (cacheKey t s.currentLanguage) with
  | some b2 =>
    rw [handlePlaySeq_hit (some b) t text s b2 ha ht hlk]
    refine ⟨finishPlay_ctx _ _ _, ?_⟩
    rw [createdCount_finishPlay, hl, hsusp]
    rw [createdCount_loadState, createdCount_stopAudio]
    simp
  | none =>
    rw [handlePlaySeq_miss b t text s ha ht hlk]
    unfold resolveOk
    dsimp only
    refine ⟨finishPlay_ctx _ _ _, ?_⟩
    rw [createdCount_finishPlay]
    rw [show ({ issueSynth (cacheKey t s.currentLanguage) (playLang t s)
        (loadState t (stopAudio s)) with
        cache := (cacheKey t s.currentLanguage, b) ::
          (issueSynth (cacheKey t s.currentLanguage) (playLang t s)
            (loadState t (stopAudio s))).cache } : CtrlState).ctx = s.ctx from
      stopAudio_ctx s, hsusp]
    dsimp only
    rw [createdCount_issueSynth, createdCount_loadState, createdCount_stopAudio]
    simp

/-! Claim theorems C8 and C1. -/

/-- Claim C8: over any session event sequence from a fresh state the shared
output context is created at most once and never closed mid-session; it is
absent until a play request needs it; teardown closes it exactly once when
it exists; and a play request finding the context suspended resumes it —
the context comes back running with no new creation. -/
theorem outputContext_lifecycle :
    (∀ (evs : List UiEvent) (targetLang tr0 : String),
      createdCount (run evs (initState targetLang tr0)).log ≤ 1 ∧
      closeCount (run evs (initState targetLang tr0)).log = 0 ∧
      ((∀ e ∈ evs, isPlayEv e = false) → (run evs (initState targetLang tr0)).ctx = none)) ∧
    (∀ s : CtrlState, closeCount (teardown s).log =
        closeCount s.log + (if s.ctx.isSome then 1 else 0) ∧ (teardown s).ctx = none) ∧
    (∀ (s : CtrlState) (t : TextType) (text : String) (b : AudioBuf),
      s.ctx = some CtxState.suspended → ¬ s.active = some t → ¬ text = "" →
      (handlePlaySeq (some b) t text s).ctx = some CtxState.running ∧
      createdCount (handlePlaySeq (some b) t text s).log = createdCount s.log) := by
  refine ⟨?_, teardown_spec, play_resume_aux⟩
  intro evs targetLang tr0
  obtain ⟨h1, h2⟩ := ctxInv_run evs (initState targetLang tr0) (ctxInv_init targetLang tr0)
  refine ⟨?_, h2, fun hnp => run_ctx_of_no_play evs _ hnp rfl⟩
  rw [h1]
  split <;> omega

/-- Witness for C8: a concrete session — play, platform suspension, replay,
stop — creates the context once, closes nothing until teardown closes it
once, and the replay resumes the suspended context without recreating it. -/
theorem outputContext_lifecycle_witness :
    createdCount (run [UiEvent.play TextType.original "hi" (some ⟨1⟩),
        UiEvent.suspendCtx, UiEvent.play TextType.simplified "yo" (some ⟨2⟩),
        UiEvent.stop] (initState "English" "t")).log ≤ 1 ∧
    closeCount (run [UiEvent.play TextType.original "hi" (some ⟨1⟩),
        UiEvent.suspendCtx, UiEvent.play TextType.simplified "yo" (some ⟨2⟩),
        UiEvent.stop] (initState "English" "t")).log = 0 ∧
    (handlePlaySeq (some ⟨2⟩) TextType.simplified "yo"
        (run [UiEvent.play TextType.original "hi" (some ⟨1⟩), UiEvent.suspendCtx]
          (initState "English" "t"))).ctx = some CtxState.running := by
  refine ⟨(outputContext_lifecycle.1 _ "English" "t").1,
    (outputContext_lifecycle.1 _ "English" "t").2.1, ?_⟩
  exact (outputContext_lifecycle.2.2
    (run [UiEvent.play TextType.original "hi" (some ⟨1⟩), UiEvent.suspendCtx]
      (initState "English" "t"))
    TextType.simplified "yo" ⟨2⟩ (by decide) (by decide) (by decide)).1

/-- Claim C1 (exhibiting the code bug): issue play(original), which suspends
at its synthesis call; issue play(simplified), which suspends likewise;
simplified's synthesis resolves and playback of simplified starts; then the
abandoned original's synthesis resolves late — and the controller, lacking
any staleness check, starts a second source and ends in
PLAYING(original) with both sources started and never stopped, contradicting
the claimed guarantee that the final state is PLAYING(simplified) or idle. -/
theorem staleSynthesisResurrectsPlayback :
    (asyncRun raceSchedule raceInit).ctrl.active = some TextType.original ∧
    (asyncRun raceSchedule raceInit).ctrl.started.length = 2 ∧
    (asyncRun raceSchedule raceInit).pendings = [] ∧
    synthCount (asyncRun raceSchedule raceInit).ctrl.log = 2 := by
  decide

end NoSpecs
